import Mathlib

/-!
# Bus Message Router (CanManager) — formal model and verification

Shallow embedding of `src/services/can_manager.py` (class `CanManager`).

Modelling conventions:
* A Python `dict` is modelled as an association list `List (κ × ν)`; keys are
  unique in every state produced by the operations.  `dictLookup` finds the
  first binding, `dictSet` updates a present key in place or appends a new
  binding at the end (Python insertion order), `dictDel` removes the binding.
* A Python `set` is modelled as a duplicate-free `List`; `setAdd` inserts only
  a missing element (at the end), `setRemove` removes the element.
* A Python value passed as a CAN id is a `PyVal`: an integer, or an opaque
  non-integral value (`isinstance(can_id, int)` distinguishes exactly these).
* Every method that can `raise` returns `State × Option CanErr`: the first
  component is the object state at the moment the call returns or raises (in
  the source, each `raise` happens before any mutation of the maps, and the
  post-raise state is whatever the maps hold at the raise site).
* The error taxonomy distinguishes the raise sites of the source:
  `TypeError` in `_validate_can_id` (`InvalidIdentifierType`), the range
  `ValueError` in `_validate_can_id` (`IdentifierOutOfRange`), the swapped
  bounds `ValueError` in `register_subscriber_range_id` (`InvalidRange`) and
  the `ValueError` in `deregister_subscriber` (`NotRegistered`).
-/

/-- A subscriber endpoint (a `multiprocessing.Queue` in the source).  Endpoints
are compared by identity; we model identities as natural-number tags. -/
abbrev Endpoint := Nat

/-- A Python value supplied as a CAN identifier: either an `int`, or some value
of a non-integral type (identified by an opaque tag, e.g. the string `'ABBA'`
used in the repository's tests). -/
inductive PyVal where
  | intVal (n : Int)
  | nonIntVal (tag : String)
deriving DecidableEq, Repr

/-- The underlying integer of a `PyVal` known to be an `int`.  Only applied
after `_validate_can_id` has succeeded, which guarantees `intVal`. -/
def PyVal.toInt : PyVal → Int
  | .intVal n => n
  | .nonIntVal _ => 0

/-- Error kinds, one per raise site of the source (spec §7 taxonomy names). -/
inductive CanErr where
  | invalidIdentifierType
  | identifierOutOfRange
  | invalidRange
  | notRegistered
deriving DecidableEq, Repr

/-- A CAN frame (`can.Message`): arbitration id and payload bytes. -/
structure CanMessage where
  arbitration_id : Int
  data : List Nat
deriving DecidableEq, Repr

/-! ## Python `dict` on association lists -/

/-- `d[k]` as an option: the first binding of `k`. -/
def dictLookup {κ ν : Type} [DecidableEq κ] : List (κ × ν) → κ → Option ν
  | [], _ => none
  | (k', v) :: rest, k => if k = k' then some v else dictLookup rest k

/-- `k in d`. -/
def dictMem {κ ν : Type} [DecidableEq κ] (d : List (κ × ν)) (k : κ) : Bool :=
  (dictLookup d k).isSome

/-- `d[k] = v`: update the binding of a present key in place, else append. -/
def dictSet {κ ν : Type} [DecidableEq κ] : List (κ × ν) → κ → ν → List (κ × ν)
  | [], k, v => [(k, v)]
  | (k', v') :: rest, k, v =>
      if k = k' then (k, v) :: rest else (k', v') :: dictSet rest k v

/-- `del d[k]`: drop the binding of `k` (keys are unique in dict states). -/
def dictDel {κ ν : Type} [DecidableEq κ] (d : List (κ × ν)) (k : κ) : List (κ × ν) :=
  d.filter (fun p => p.1 ≠ k)

/-! ## Python `set` on duplicate-free lists -/

/-- `s.add(x)`: no-op when present, else insert. -/
def setAdd {α : Type} [DecidableEq α] (s : List α) (x : α) : List α :=
  if x ∈ s then s else s ++ [x]

/-- `s.remove(x)` (the caller has checked membership). -/
def setRemove {α : Type} [DecidableEq α] (s : List α) (x : α) : List α :=
  s.filter (fun y => y ≠ x)

/-! ## Shared dict-of-sets operations used by the registry

`dictEnsure`/`dictAddToSet` model the source's two-line idiom
`if k not in d: d[k] = set()` … `d[k].add(x)`; `dictSetAdd` models a bare
`d[k].add(x)` on a key already present; `dictRemoveFromSet` models
`if x in d[k]: d[k].remove(x)` … `if not d[k]: del d[k]`. -/

/-- `if k not in d: d[k] = set()`. -/
def dictEnsure {κ α : Type} [DecidableEq κ] (m : List (κ × List α)) (k : κ) :
    List (κ × List α) :=
  if dictMem m k then m else dictSet m k []

/-- `d[k].add(x)` with the key known present (totalized by `getD []`). -/
def dictSetAdd {κ α : Type} [DecidableEq κ] [DecidableEq α]
    (m : List (κ × List α)) (k : κ) (x : α) : List (κ × List α) :=
  dictSet m k (setAdd ((dictLookup m k).getD []) x)

/-- `if k not in d: d[k] = set()` followed by `d[k].add(x)`. -/
def dictAddToSet {κ α : Type} [DecidableEq κ] [DecidableEq α]
    (m : List (κ × List α)) (k : κ) (x : α) : List (κ × List α) :=
  dictSetAdd (dictEnsure m k) k x

/-- `if x in d[k]: d[k].remove(x)` then `if not d[k]: del d[k]`, all guarded by
`if k in d` (lines 117–123 and 126–132 of the source). -/
def dictRemoveFromSet {κ α : Type} [DecidableEq κ] [DecidableEq α]
    (m : List (κ × List α)) (k : κ) (x : α) : List (κ × List α) :=
  if dictMem m k then
    let s := (dictLookup m k).getD []
    let m1 := if x ∈ s then dictSet m k (setRemove s x) else m
    if (dictLookup m1 k).getD [] = [] then dictDel m1 k else m1
  else m

/-! ## The CanManager state and operations -/

/-- The mutable state of a `CanManager` object: the two subscription maps, the
lifecycle flag `is_running`, and whether `self.bus` holds an open bus handle
(`None` in `__init__`). -/
structure CanManagerState where
  id_subscriber_map : List (PyVal × List Endpoint)
  subscriber_id_map : List (Endpoint × List PyVal)
  is_running : Bool
  bus_open : Bool
deriving DecidableEq, Repr

/-- The state set up by `CanManager.__init__`: empty maps, not running, no bus. -/
def canManagerInit : CanManagerState :=
  { id_subscriber_map := [], subscriber_id_map := [], is_running := false,
    bus_open := false }

/-- `CanManager._validate_can_id` (lines 65–70): `TypeError` when the value is
not an `int`, `ValueError` when it is negative or `≥ 0x800`; returns the raised
error, `none` on success. -/
def _validate_can_id (can_id : PyVal) : Option CanErr :=
  match can_id with
  | .nonIntVal _ => some .invalidIdentifierType
  | .intVal n => if n < 0 ∨ n ≥ 0x800 then some .identifierOutOfRange else none

/-- `CanManager.register_subscriber_single_id` (lines 72–87): validate, then
insert the pair into both maps (lines 78–85). -/
def register_subscriber_single_id (st : CanManagerState) (can_id : PyVal)
    (q : Endpoint) : CanManagerState × Option CanErr :=
  match _validate_can_id can_id with
  | some e => (st, some e)
  | none =>
    ({ st with
        id_subscriber_map := dictAddToSet st.id_subscriber_map can_id q,
        subscriber_id_map := dictAddToSet st.subscriber_id_map q can_id }, none)

/-- `n` consecutive integers starting at `lo`. -/
def intRangeAux : Nat → Int → List Int
  | 0, _ => []
  | n + 1, lo => lo :: intRangeAux n (lo + 1)

/-- Python `range(lo, hi + 1)` over integers, as the list `[lo, …, hi]`. -/
def rangeList (lo hi : Int) : List Int :=
  intRangeAux (hi + 1 - lo).toNat lo

/-- `CanManager.register_subscriber_range_id` (lines 89–108): validate both
bounds, raise when `can_id_high < can_id_low`, then add the endpoint under
every id of the range (lines 98–101) and all range ids under the endpoint
(lines 103–106). -/
def register_subscriber_range_id (st : CanManagerState)
    (can_id_high can_id_low : PyVal) (q : Endpoint) :
    CanManagerState × Option CanErr :=
  match _validate_can_id can_id_high with
  | some e => (st, some e)
  | none =>
  match _validate_can_id can_id_low with
  | some e => (st, some e)
  | none =>
  if can_id_high.toInt < can_id_low.toInt then (st, some .invalidRange)
  else
    let ids := rangeList can_id_low.toInt can_id_high.toInt
    let fwd := ids.foldl (fun m i => dictAddToSet m (.intVal i) q)
                 st.id_subscriber_map
    let rev0 := dictEnsure st.subscriber_id_map q
    let rev := ids.foldl (fun m i => dictSetAdd m q (.intVal i)) rev0
    ({ st with id_subscriber_map := fwd, subscriber_id_map := rev }, none)

/-- `CanManager.deregister_subscriber` (lines 110–134): raise `ValueError` when
the id is not a key of the forward map **or** the endpoint is not a key of the
reverse map (line 113), else remove the pair from both maps with cleanup of
now-empty entries.  Note: no id validation is performed, and the guard is on
the two keys separately, not on the pair. -/
def deregister_subscriber (st : CanManagerState) (can_id : PyVal)
    (q : Endpoint) : CanManagerState × Option CanErr :=
  if !(dictMem st.id_subscriber_map can_id) || !(dictMem st.subscriber_id_map q)
  then (st, some .notRegistered)
  else
    ({ st with
        id_subscriber_map := dictRemoveFromSet st.id_subscriber_map can_id q,
        subscriber_id_map := dictRemoveFromSet st.subscriber_id_map q can_id },
      none)

/-- `CanManager.start` (lines 30–42).  `busOpenRaises` models whether opening
the transport adapter (`can.interface.Bus`, line 39) raises.  Returns the
object state when the call returns or its exception propagates, paired with
whether it raised.  The source sets `self.is_running = True` (line 32) before
the fallible open and has no exception handler. -/
def CanManager_start (st : CanManagerState) (busOpenRaises : Bool) :
    CanManagerState × Bool :=
  let st1 := { st with is_running := true }
  if busOpenRaises then (st1, true)
  else ({ st1 with bus_open := true }, false)

/-- The `for queue in self.id_subscriber_map[can_id]: queue.put(message)` loop
(lines 145–146), run under the `try` of lines 139–148: a `put` that raises
aborts the loop, and the exception is caught and logged by the `except` of
lines 147–148.  Returns the endpoints whose `put` completed. -/
def putLoop (subs : List Endpoint) (putRaises : Endpoint → Bool) :
    List Endpoint :=
  match subs with
  | [] => []
  | q :: rest => if putRaises q then [] else q :: putLoop rest putRaises

/-- One message-dispatch step of `CanManager._receive_can_messages`
(lines 141–146): the subscriber lookup and fan-out for a received message.
Returns the endpoints that received the message.  Total: no exception leaves
the loop body. -/
def _receive_can_messages_dispatch (st : CanManagerState)
    (putRaises : Endpoint → Bool) (message : CanMessage) : List Endpoint :=
  if dictMem st.id_subscriber_map (.intVal message.arbitration_id) then
    putLoop ((dictLookup st.id_subscriber_map
                (.intVal message.arbitration_id)).getD []) putRaises
  else []

/-- The subscriber set for an id, as read by the receive loop. -/
def subscribersOf (st : CanManagerState) (i : Int) : List Endpoint :=
  (dictLookup st.id_subscriber_map (.intVal i)).getD []

/-- One iteration of `CanManager._send_can_messages` (lines 152–160): pull
`message` from the command queue; when it is not `None`, pass it unchanged to
`self.bus.send` (line 158).  `busSendRaises` models an adapter write error,
caught and logged by the `except` (lines 159–160).  Returns the messages
handed to the transport adapter, and whether an error was logged.  The body
performs no check on the payload. -/
def _send_can_messages_iteration (busSendRaises : CanMessage → Bool)
    (message : Option CanMessage) : List CanMessage × Bool :=
  match message with
  | none => ([], false)
  | some m => ([m], busSendRaises m)

/-! ## The registry invariant (spec §3)

A pair `(id, ep)` is in the forward view iff it is in the reverse view, and no
entry of either map holds an empty set. -/

/-- The registry invariant of the subscription maps. -/
def RegInv (st : CanManagerState) : Prop :=
  (∀ k q, q ∈ (dictLookup st.id_subscriber_map k).getD [] ↔
      k ∈ (dictLookup st.subscriber_id_map q).getD []) ∧
  (∀ k s, dictLookup st.id_subscriber_map k = some s → s ≠ []) ∧
  (∀ q t, dictLookup st.subscriber_id_map q = some t → t ≠ [])

/-! ## Concrete example states and messages used in the analysis -/

/-- Registry state reached from `__init__` by subscribing endpoint `10` to id
`1` and endpoint `20` to id `2`: both the id `1` and the endpoint `20` appear
in the registry, but the pair `(1, 20)` is not subscribed. -/
def exSt1 : CanManagerState :=
  (register_subscriber_single_id
    (register_subscriber_single_id canManagerInit (.intVal 1) 10).1
    (.intVal 2) 20).1

/-- Registry state reached from `__init__` by subscribing endpoint `30` to id
`3` and endpoint `40` to id `4`. -/
def exSt10 : CanManagerState :=
  (register_subscriber_single_id
    (register_subscriber_single_id canManagerInit (.intVal 3) 30).1
    (.intVal 4) 40).1

/-- Registry state reached from `__init__` by subscribing endpoints `1` and
`2` (in that order) to id `5`. -/
def exSt3 : CanManagerState :=
  (register_subscriber_single_id
    (register_subscriber_single_id canManagerInit (.intVal 5) 1).1
    (.intVal 5) 2).1

/-- A delivery-failure model in which endpoint `1`'s inbound queue raises on
`put` and every other endpoint's queue accepts the message. -/
def exFailing : Endpoint → Bool := fun q => q == 1

/-- An inbound frame with id `5`. -/
def exMsg3 : CanMessage := { arbitration_id := 5, data := [0xAB] }

/-- An outgoing frame whose payload is 9 bytes long — one more than the CAN
frame data-length limit of 8. -/
def exMsg9 : CanMessage :=
  { arbitration_id := 0x100, data := [1, 2, 3, 4, 5, 6, 7, 8, 9] }

/-! ### Lemmas about the dict and set model -/

theorem dictLookup_dictSet_self {κ ν : Type} [DecidableEq κ]
    (d : List (κ × ν)) (k : κ) (v : ν) :
    dictLookup (dictSet d k v) k = some v := by
  induction d with
  | nil => simp [dictSet, dictLookup]
  | cons p rest ih =>
    by_cases h : k = p.1
    · simp [dictSet, dictLookup, h]
    · simp [dictSet, dictLookup, h, ih]

theorem dictLookup_dictSet_ne {κ ν : Type} [DecidableEq κ]
    (d : List (κ × ν)) (k k' : κ) (v : ν) (hne : k' ≠ k) :
    dictLookup (dictSet d k v) k' = dictLookup d k' := by
  induction d with
  | nil => simp [dictSet, dictLookup, hne]
  | cons p rest ih =>
    by_cases h : k = p.1
    · subst h
      simp [dictSet, dictLookup, hne]
    · by_cases h' : k' = p.1
      · simp [dictSet, dictLookup, h, h']
      · simp [dictSet, dictLookup, h, h', ih]

theorem dictSet_self {κ ν : Type} [DecidableEq κ]
    (d : List (κ × ν)) (k : κ) (v : ν) (h : dictLookup d k = some v) :
    dictSet d k v = d := by
  induction d with
  | nil => simp [dictLookup] at h
  | cons p rest ih =>
    obtain ⟨a, b⟩ := p
    by_cases hk : k = a
    · subst hk
      simp [dictLookup] at h
      simp [dictSet, h]
    · simp [dictLookup, hk] at h
      simp [dictSet, hk, ih h]

theorem dictLookup_dictDel_self {κ ν : Type} [DecidableEq κ]
    (d : List (κ × ν)) (k : κ) :
    dictLookup (dictDel d k) k = none := by
  induction d with
  | nil => simp [dictDel, dictLookup]
  | cons p rest ih =>
    by_cases h : p.1 = k
    · simpa [dictDel, h] using ih
    · have hk : ¬ k = p.1 := fun hh => h hh.symm
      simpa [dictDel, dictLookup, h, hk] using ih

theorem dictLookup_dictDel_ne {κ ν : Type} [DecidableEq κ]
    (d : List (κ × ν)) (k k' : κ) (hne : k' ≠ k) :
    dictLookup (dictDel d k) k' = dictLookup d k' := by
  induction d with
  | nil => simp [dictDel, dictLookup]
  | cons p rest ih =>
    obtain ⟨a, b⟩ := p
    by_cases h : a = k
    · subst h
      simpa [dictDel, dictLookup, hne] using ih
    · by_cases h' : k' = a
      · simp [dictDel, dictLookup, h, h']
      · simpa [dictDel, dictLookup, h, h'] using ih

theorem mem_setAdd {α : Type} [DecidableEq α] (s : List α) (x y : α) :
    y ∈ setAdd s x ↔ y ∈ s ∨ y = x := by
  by_cases h : x ∈ s
  · simp only [setAdd, if_pos h]
    constructor
    · exact Or.inl
    · rintro (hy | rfl) <;> [exact hy; exact h]
  · simp [setAdd, if_neg h]

theorem setAdd_self_mem {α : Type} [DecidableEq α] (s : List α) (x : α) :
    x ∈ setAdd s x := (mem_setAdd s x x).mpr (Or.inr rfl)

theorem setAdd_ne_nil {α : Type} [DecidableEq α] (s : List α) (x : α) :
    setAdd s x ≠ [] := by
  intro h
  exact absurd (h ▸ setAdd_self_mem s x) (List.not_mem_nil x)

theorem setAdd_of_mem {α : Type} [DecidableEq α] (s : List α) (x : α) (h : x ∈ s) :
    setAdd s x = s := by simp [setAdd, h]

theorem mem_setRemove {α : Type} [DecidableEq α] (s : List α) (x y : α) :
    y ∈ setRemove s x ↔ y ∈ s ∧ y ≠ x := by
  simp [setRemove, List.mem_filter]

theorem setRemove_of_not_mem {α : Type} [DecidableEq α] (s : List α) (x : α)
    (h : x ∉ s) : setRemove s x = s := by
  apply List.filter_eq_self.mpr
  intro y hy
  simp only [ne_eq, decide_eq_true_eq]
  intro hxy
  exact h (hxy ▸ hy)

/-! ### Characterization lemmas for the registry operations -/

theorem dictLookup_dictEnsure {κ α : Type} [DecidableEq κ]
    (m : List (κ × List α)) (k k' : κ) :
    dictLookup (dictEnsure m k) k' =
      if k' = k then some ((dictLookup m k).getD []) else dictLookup m k' := by
  by_cases hk : k' = k
  · subst hk
    unfold dictEnsure dictMem
    cases h : dictLookup m k' with
    | none => simp [h, dictLookup_dictSet_self]
    | some s => simp [h]
  · unfold dictEnsure dictMem
    cases h : dictLookup m k with
    | none => simp [h, dictLookup_dictSet_ne m k k' _ hk, hk]
    | some s => simp [h, hk]

theorem dictLookup_dictSetAdd {κ α : Type} [DecidableEq κ] [DecidableEq α]
    (m : List (κ × List α)) (k k' : κ) (x : α) :
    dictLookup (dictSetAdd m k x) k' =
      if k' = k then some (setAdd ((dictLookup m k).getD []) x)
      else dictLookup m k' := by
  by_cases hk : k' = k
  · subst hk
    simp [dictSetAdd, dictLookup_dictSet_self]
  · simp [dictSetAdd, dictLookup_dictSet_ne m k k' _ hk, hk]

theorem dictLookup_dictAddToSet {κ α : Type} [DecidableEq κ] [DecidableEq α]
    (m : List (κ × List α)) (k k' : κ) (x : α) :
    dictLookup (dictAddToSet m k x) k' =
      if k' = k then some (setAdd ((dictLookup m k).getD []) x)
      else dictLookup m k' := by
  unfold dictAddToSet
  rw [dictLookup_dictSetAdd]
  rw [dictLookup_dictEnsure]
  by_cases hk : k' = k
  · simp [hk, dictLookup_dictEnsure]
  · simp [hk, dictLookup_dictEnsure]

theorem mem_dictAddToSet {κ α : Type} [DecidableEq κ] [DecidableEq α]
    (m : List (κ × List α)) (k k' : κ) (x y : α) :
    y ∈ (dictLookup (dictAddToSet m k x) k').getD [] ↔
      y ∈ (dictLookup m k').getD [] ∨ (k' = k ∧ y = x) := by
  rw [dictLookup_dictAddToSet]
  by_cases hk : k' = k
  · subst hk
    simp [mem_setAdd]
  · simp [hk]

theorem dictAddToSet_entry_ne_nil {κ α : Type} [DecidableEq κ] [DecidableEq α]
    (m : List (κ × List α)) (k k' : κ) (x : α) (s : List α)
    (h : dictLookup (dictAddToSet m k x) k' = some s) :
    s ≠ [] ∨ dictLookup m k' = some s := by
  rw [dictLookup_dictAddToSet] at h
  by_cases hk : k' = k
  · rw [if_pos hk] at h
    exact Or.inl (by
      injection h with h'
      exact h' ▸ setAdd_ne_nil _ _)
  · rw [if_neg hk] at h
    exact Or.inr h

theorem mem_dictRemoveFromSet {κ α : Type} [DecidableEq κ] [DecidableEq α]
    (m : List (κ × List α)) (k k' : κ) (x y : α) :
    y ∈ (dictLookup (dictRemoveFromSet m k x) k').getD [] ↔
      y ∈ (dictLookup m k').getD [] ∧ ¬(k' = k ∧ y = x) := by
  unfold dictRemoveFromSet
  by_cases hmem : dictMem m k
  · simp only [if_pos hmem]
    obtain ⟨s, hs⟩ : ∃ s, dictLookup m k = some s := by
      unfold dictMem at hmem
      exact Option.isSome_iff_exists.mp hmem
    by_cases hx : x ∈ (dictLookup m k).getD []
    · simp only [if_pos hx]
      by_cases hempty :
          (dictLookup (dictSet m k (setRemove ((dictLookup m k).getD []) x)) k).getD [] = []
      · simp only [if_pos hempty]
        rw [dictLookup_dictSet_self] at hempty
        simp only [Option.getD_some] at hempty
        by_cases hk : k' = k
        · rw [hk, dictLookup_dictDel_self]
          constructor
          · intro hy
            simp at hy
          · rintro ⟨hy, hne⟩
            by_cases hyx : y = x
            · exact absurd ⟨rfl, hyx⟩ hne
            · have hmem2 : y ∈ setRemove ((dictLookup m k).getD []) x :=
                (mem_setRemove _ _ _).mpr ⟨hy, hyx⟩
              rw [hempty] at hmem2
              simp at hmem2
        · rw [dictLookup_dictDel_ne _ _ _ hk, dictLookup_dictSet_ne _ _ _ _ hk]
          simp [hk]
      · simp only [if_neg hempty]
        by_cases hk : k' = k
        · subst hk
          rw [dictLookup_dictSet_self]
          simp only [Option.getD_some, mem_setRemove]
          tauto
        · rw [dictLookup_dictSet_ne _ _ _ _ hk]
          simp [hk]
    · simp only [if_neg hx]
      by_cases hempty : (dictLookup m k).getD [] = []
      · simp only [if_pos hempty]
        by_cases hk : k' = k
        · subst hk
          rw [dictLookup_dictDel_self]
          rw [hs] at hempty
          simp only [Option.getD_some] at hempty
          simp [hs, hempty]
        · rw [dictLookup_dictDel_ne _ _ _ hk]
          simp [hk]
      · simp only [if_neg hempty]
        by_cases hk : k' = k
        · subst hk
          constructor
          · intro hy
            exact ⟨hy, fun hc => hx (hc.2 ▸ hy)⟩
          · exact fun hy => hy.1
        · simp [hk]
  · simp only [if_neg hmem]
    have : dictLookup m k = none := by
      unfold dictMem at hmem
      exact Option.not_isSome_iff_eq_none.mp hmem
    by_cases hk : k' = k
    · subst hk
      simp [this]
    · simp [hk]

theorem dictRemoveFromSet_entry_ne_nil {κ α : Type} [DecidableEq κ] [DecidableEq α]
    (m : List (κ × List α)) (k k' : κ) (x : α) (s : List α)
    (h : dictLookup (dictRemoveFromSet m k x) k' = some s) :
    s ≠ [] ∨ dictLookup m k' = some s := by
  unfold dictRemoveFromSet at h
  by_cases hmem : dictMem m k
  · simp only [if_pos hmem] at h
    by_cases hk : k' = k
    · subst hk
      by_cases hx : x ∈ (dictLookup m k').getD []
      · simp only [if_pos hx] at h
        by_cases hempty :
            (dictLookup (dictSet m k' (setRemove ((dictLookup m k').getD []) x)) k').getD [] = []
        · rw [if_pos hempty, dictLookup_dictDel_self] at h
          exact absurd h (by simp)
        · rw [if_neg hempty, dictLookup_dictSet_self] at h
          rw [dictLookup_dictSet_self] at hempty
          injection h with h'
          exact Or.inl (h' ▸ by simpa using hempty)
      · simp only [if_neg hx] at h
        by_cases hempty : (dictLookup m k').getD [] = []
        · rw [if_pos hempty, dictLookup_dictDel_self] at h
          exact absurd h (by simp)
        · rw [if_neg hempty] at h
          exact Or.inl (by
            rw [h] at hempty
            simpa using hempty)
    · by_cases hx : x ∈ (dictLookup m k).getD []
      · simp only [if_pos hx] at h
        by_cases hempty :
            (dictLookup (dictSet m k (setRemove ((dictLookup m k).getD []) x)) k).getD [] = []
        · rw [if_pos hempty, dictLookup_dictDel_ne _ _ _ hk,
            dictLookup_dictSet_ne _ _ _ _ hk] at h
          exact Or.inr h
        · rw [if_neg hempty, dictLookup_dictSet_ne _ _ _ _ hk] at h
          exact Or.inr h
      · simp only [if_neg hx] at h
        by_cases hempty : (dictLookup m k).getD [] = []
        · rw [if_pos hempty, dictLookup_dictDel_ne _ _ _ hk] at h
          exact Or.inr h
        · rw [if_neg hempty] at h
          exact Or.inr h
  · simp only [if_neg hmem] at h
    exact Or.inr h

theorem dictRemoveFromSet_of_not_mem {κ α : Type} [DecidableEq κ] [DecidableEq α]
    (m : List (κ × List α)) (k : κ) (x : α)
    (hx : x ∉ (dictLookup m k).getD [])
    (hne : ∀ s, dictLookup m k = some s → s ≠ []) :
    dictRemoveFromSet m k x = m := by
  unfold dictRemoveFromSet
  by_cases hmem : dictMem m k
  · obtain ⟨s, hs⟩ : ∃ s, dictLookup m k = some s := by
      unfold dictMem at hmem
      exact Option.isSome_iff_exists.mp hmem
    simp only [if_pos hmem, if_neg hx]
    rw [if_neg (by simp [hs, hne s hs])]
  · simp [hmem]

/-! ### Lemmas about the range-registration folds -/

theorem mem_foldl_dictAddToSet (ids : List Int) (m : List (PyVal × List Endpoint))
    (q y : Endpoint) (k : PyVal) :
    y ∈ (dictLookup (ids.foldl (fun m i => dictAddToSet m (.intVal i) q) m) k).getD [] ↔
      y ∈ (dictLookup m k).getD [] ∨ (y = q ∧ ∃ i ∈ ids, k = PyVal.intVal i) := by
  induction ids generalizing m with
  | nil => simp
  | cons i rest ih =>
    simp only [List.foldl_cons]
    rw [ih, mem_dictAddToSet, List.exists_mem_cons_iff]
    tauto

theorem foldl_dictAddToSet_entry_ne_nil (ids : List Int)
    (m : List (PyVal × List Endpoint)) (q : Endpoint) (k : PyVal) (s : List Endpoint)
    (h : dictLookup (ids.foldl (fun m i => dictAddToSet m (.intVal i) q) m) k = some s) :
    s ≠ [] ∨ dictLookup m k = some s := by
  induction ids generalizing m with
  | nil => exact Or.inr h
  | cons i rest ih =>
    simp only [List.foldl_cons] at h
    rcases ih _ h with h1 | h2
    · exact Or.inl h1
    · exact dictAddToSet_entry_ne_nil _ _ _ _ _ h2

theorem dictLookup_foldl_dictSetAdd_ne (ids : List Int)
    (m : List (Endpoint × List PyVal)) (q q' : Endpoint) (hne : q' ≠ q) :
    dictLookup (ids.foldl (fun m i => dictSetAdd m q (.intVal i)) m) q' =
      dictLookup m q' := by
  induction ids generalizing m with
  | nil => rfl
  | cons i rest ih =>
    simp only [List.foldl_cons]
    rw [ih, dictLookup_dictSetAdd, if_neg hne]

theorem mem_foldl_dictSetAdd_self (ids : List Int)
    (m : List (Endpoint × List PyVal)) (q : Endpoint) (k : PyVal) :
    k ∈ (dictLookup (ids.foldl (fun m i => dictSetAdd m q (.intVal i)) m) q).getD [] ↔
      k ∈ (dictLookup m q).getD [] ∨ ∃ i ∈ ids, k = PyVal.intVal i := by
  induction ids generalizing m with
  | nil => simp
  | cons i rest ih =>
    simp only [List.foldl_cons]
    rw [ih]
    have hself : dictLookup (dictSetAdd m q (PyVal.intVal i)) q =
        some (setAdd ((dictLookup m q).getD []) (PyVal.intVal i)) := by
      rw [dictLookup_dictSetAdd, if_pos rfl]
    rw [hself, List.exists_mem_cons_iff]
    simp only [Option.getD_some, mem_setAdd]
    tauto

theorem foldl_dictSetAdd_entry (ids : List Int)
    (m : List (Endpoint × List PyVal)) (q q' : Endpoint) (s : List PyVal)
    (h : dictLookup (ids.foldl (fun m i => dictSetAdd m q (.intVal i)) m) q' = some s) :
    s ≠ [] ∨ (dictLookup m q' = some s ∧ (q' ≠ q ∨ ids = [])) := by
  induction ids generalizing m with
  | nil => exact Or.inr ⟨h, Or.inr rfl⟩
  | cons i rest ih =>
    simp only [List.foldl_cons] at h
    rcases ih _ h with h1 | ⟨h2, _⟩
    · exact Or.inl h1
    · rw [dictLookup_dictSetAdd] at h2
      by_cases hq : q' = q
      · rw [if_pos hq] at h2
        injection h2 with h3
        exact Or.inl (h3 ▸ setAdd_ne_nil _ _)
      · rw [if_neg hq] at h2
        exact Or.inr ⟨h2, Or.inl hq⟩

/-! ### The integer range `[lo, hi]` -/

theorem mem_intRangeAux (n : Nat) (lo x : Int) :
    x ∈ intRangeAux n lo ↔ lo ≤ x ∧ x < lo + n := by
  induction n generalizing lo with
  | zero => simp [intRangeAux]
  | succ m ih =>
    simp only [intRangeAux, List.mem_cons, ih]
    omega

theorem mem_rangeList (lo hi x : Int) : x ∈ rangeList lo hi ↔ lo ≤ x ∧ x ≤ hi := by
  rw [rangeList, mem_intRangeAux]
  omega

theorem rangeList_ne_nil (lo hi : Int) (h : lo ≤ hi) : rangeList lo hi ≠ [] := by
  intro hnil
  have hmem : lo ∈ rangeList lo hi := (mem_rangeList lo hi lo).mpr ⟨le_refl lo, h⟩
  rw [hnil] at hmem
  exact List.not_mem_nil lo hmem


theorem RegInv_canManagerInit : RegInv canManagerInit := by
  refine ⟨fun k q => ?_, fun k s h => ?_, fun q t h => ?_⟩ <;>
    simp [canManagerInit, dictLookup] at *

/-! ### Unfolding lemmas for the registry operations -/

theorem register_single_err (st : CanManagerState) (k : PyVal) (q : Endpoint)
    (e : CanErr) (hv : _validate_can_id k = some e) :
    register_subscriber_single_id st k q = (st, some e) := by
  unfold register_subscriber_single_id
  rw [hv]

theorem register_single_ok (st : CanManagerState) (k : PyVal) (q : Endpoint)
    (hv : _validate_can_id k = none) :
    register_subscriber_single_id st k q =
      ({ st with
          id_subscriber_map := dictAddToSet st.id_subscriber_map k q,
          subscriber_id_map := dictAddToSet st.subscriber_id_map q k }, none) := by
  unfold register_subscriber_single_id
  rw [hv]

theorem register_range_err_high (st : CanManagerState) (hi lo : PyVal)
    (q : Endpoint) (e : CanErr) (hv : _validate_can_id hi = some e) :
    register_subscriber_range_id st hi lo q = (st, some e) := by
  unfold register_subscriber_range_id
  rw [hv]

theorem register_range_err_low (st : CanManagerState) (hi lo : PyVal)
    (q : Endpoint) (e : CanErr) (hv1 : _validate_can_id hi = none)
    (hv2 : _validate_can_id lo = some e) :
    register_subscriber_range_id st hi lo q = (st, some e) := by
  unfold register_subscriber_range_id
  rw [hv1, hv2]

theorem register_range_err_swapped (st : CanManagerState) (hi lo : PyVal)
    (q : Endpoint) (hv1 : _validate_can_id hi = none)
    (hv2 : _validate_can_id lo = none) (hlt : hi.toInt < lo.toInt) :
    register_subscriber_range_id st hi lo q = (st, some .invalidRange) := by
  unfold register_subscriber_range_id
  rw [hv1, hv2, if_pos hlt]

theorem register_range_ok (st : CanManagerState) (hi lo : PyVal) (q : Endpoint)
    (hv1 : _validate_can_id hi = none) (hv2 : _validate_can_id lo = none)
    (hle : ¬ hi.toInt < lo.toInt) :
    register_subscriber_range_id st hi lo q =
      ({ st with
          id_subscriber_map :=
            (rangeList lo.toInt hi.toInt).foldl
              (fun m i => dictAddToSet m (.intVal i) q) st.id_subscriber_map,
          subscriber_id_map :=
            (rangeList lo.toInt hi.toInt).foldl
              (fun m i => dictSetAdd m q (.intVal i))
              (dictEnsure st.subscriber_id_map q) }, none) := by
  unfold register_subscriber_range_id
  rw [hv1, hv2, if_neg hle]

theorem deregister_err (st : CanManagerState) (k : PyVal) (q : Endpoint)
    (h : dictMem st.id_subscriber_map k = false ∨
         dictMem st.subscriber_id_map q = false) :
    deregister_subscriber st k q = (st, some .notRegistered) := by
  unfold deregister_subscriber
  rcases h with h | h <;> simp [h]

theorem deregister_ok (st : CanManagerState) (k : PyVal) (q : Endpoint)
    (h1 : dictMem st.id_subscriber_map k = true)
    (h2 : dictMem st.subscriber_id_map q = true) :
    deregister_subscriber st k q =
      ({ st with
          id_subscriber_map := dictRemoveFromSet st.id_subscriber_map k q,
          subscriber_id_map := dictRemoveFromSet st.subscriber_id_map q k },
        none) := by
  unfold deregister_subscriber
  simp [h1, h2]

/-! ### Membership after a range registration -/

theorem mem_revRangeFold (ids : List Int) (rev : List (Endpoint × List PyVal))
    (q q' : Endpoint) (k : PyVal) :
    k ∈ (dictLookup (ids.foldl (fun m i => dictSetAdd m q (.intVal i))
          (dictEnsure rev q)) q').getD [] ↔
      k ∈ (dictLookup rev q').getD [] ∨ (q' = q ∧ ∃ i ∈ ids, k = PyVal.intVal i) := by
  by_cases hq : q' = q
  · subst hq
    rw [mem_foldl_dictSetAdd_self, dictLookup_dictEnsure, if_pos rfl]
    simp
  · rw [dictLookup_foldl_dictSetAdd_ne _ _ _ _ hq, dictLookup_dictEnsure, if_neg hq]
    simp [hq]

/-! ### Preservation of the registry invariant -/

theorem RegInv_register_single (st st' : CanManagerState) (k : PyVal)
    (q : Endpoint) (e : Option CanErr) (hinv : RegInv st)
    (h : register_subscriber_single_id st k q = (st', e)) : RegInv st' := by
  cases hv : _validate_can_id k with
  | some err =>
    rw [register_single_err st k q err hv] at h
    injection h with h1 _
    exact h1 ▸ hinv
  | none =>
    rw [register_single_ok st k q hv] at h
    injection h with h1 _
    subst h1
    obtain ⟨hiff, hfwd, hrev⟩ := hinv
    refine ⟨fun k' q' => ?_, fun k' s hs => ?_, fun q' t ht => ?_⟩
    · simp only [mem_dictAddToSet]
      rw [hiff k' q']
      tauto
    · rcases dictAddToSet_entry_ne_nil _ _ _ _ _ hs with h' | h'
      · exact h'
      · exact hfwd k' s h'
    · rcases dictAddToSet_entry_ne_nil _ _ _ _ _ ht with h' | h'
      · exact h'
      · exact hrev q' t h'

theorem RegInv_register_range (st st' : CanManagerState) (hi lo : PyVal)
    (q : Endpoint) (e : Option CanErr) (hinv : RegInv st)
    (h : register_subscriber_range_id st hi lo q = (st', e)) : RegInv st' := by
  cases hv1 : _validate_can_id hi with
  | some err =>
    rw [register_range_err_high st hi lo q err hv1] at h
    injection h with h1 _
    exact h1 ▸ hinv
  | none =>
  cases hv2 : _validate_can_id lo with
  | some err =>
    rw [register_range_err_low st hi lo q err hv1 hv2] at h
    injection h with h1 _
    exact h1 ▸ hinv
  | none =>
  by_cases hlt : hi.toInt < lo.toInt
  · rw [register_range_err_swapped st hi lo q hv1 hv2 hlt] at h
    injection h with h1 _
    exact h1 ▸ hinv
  · rw [register_range_ok st hi lo q hv1 hv2 hlt] at h
    injection h with h1 _
    subst h1
    obtain ⟨hiff, hfwd, hrev⟩ := hinv
    have hids : rangeList lo.toInt hi.toInt ≠ [] :=
      rangeList_ne_nil _ _ (by omega)
    refine ⟨fun k' q' => ?_, fun k' s hs => ?_, fun q' t ht => ?_⟩
    · simp only [mem_foldl_dictAddToSet, mem_revRangeFold]
      rw [hiff k' q']
    · rcases foldl_dictAddToSet_entry_ne_nil _ _ _ _ _ hs with h' | h'
      · exact h'
      · exact hfwd k' s h'
    · rcases foldl_dictSetAdd_entry _ _ _ _ _ ht with h' | ⟨h2, h3⟩
      · exact h'
      · rcases h3 with h3 | h3
        · rw [dictLookup_dictEnsure, if_neg h3] at h2
          exact hrev q' t h2
        · exact absurd h3 hids

theorem RegInv_deregister (st st' : CanManagerState) (k : PyVal) (q : Endpoint)
    (e : Option CanErr) (hinv : RegInv st)
    (h : deregister_subscriber st k q = (st', e)) : RegInv st' := by
  by_cases hmem : dictMem st.id_subscriber_map k = true ∧
      dictMem st.subscriber_id_map q = true
  · rw [deregister_ok st k q hmem.1 hmem.2] at h
    injection h with h1 _
    subst h1
    obtain ⟨hiff, hfwd, hrev⟩ := hinv
    refine ⟨fun k' q' => ?_, fun k' s hs => ?_, fun q' t ht => ?_⟩
    · simp only [mem_dictRemoveFromSet]
      rw [hiff k' q']
      tauto
    · rcases dictRemoveFromSet_entry_ne_nil _ _ _ _ _ hs with h' | h'
      · exact h'
      · exact hfwd k' s h'
    · rcases dictRemoveFromSet_entry_ne_nil _ _ _ _ _ ht with h' | h'
      · exact h'
      · exact hrev q' t h'
  · have h' : dictMem st.id_subscriber_map k = false ∨
        dictMem st.subscriber_id_map q = false := by
      rcases Decidable.not_and_iff_or_not.mp hmem with h' | h' <;>
        [exact Or.inl (Bool.not_eq_true _ ▸ Bool.eq_false_iff.mpr h');
         exact Or.inr (Bool.not_eq_true _ ▸ Bool.eq_false_iff.mpr h')]
    rw [deregister_err st k q h'] at h
    injection h with h1 _
    exact h1 ▸ hinv

/-! ### Further helper lemmas -/

theorem PyVal_toInt_intVal (n : Int) : (PyVal.intVal n).toInt = n := rfl

theorem dictAddToSet_idem {κ α : Type} [DecidableEq κ] [DecidableEq α]
    (m : List (κ × List α)) (k : κ) (x : α) :
    dictAddToSet (dictAddToSet m k x) k x = dictAddToSet m k x := by
  have hA : dictLookup (dictAddToSet m k x) k =
      some (setAdd ((dictLookup m k).getD []) x) := by
    rw [dictLookup_dictAddToSet, if_pos rfl]
  have hens : dictEnsure (dictAddToSet m k x) k = dictAddToSet m k x := by
    unfold dictEnsure dictMem
    rw [hA]
    simp
  calc dictAddToSet (dictAddToSet m k x) k x
      = dictSetAdd (dictAddToSet m k x) k x := by rw [dictAddToSet, hens]
    _ = dictSet (dictAddToSet m k x) k
          (setAdd ((dictLookup (dictAddToSet m k x) k).getD []) x) := rfl
    _ = dictSet (dictAddToSet m k x) k
          (setAdd ((dictLookup m k).getD []) x) := by
          rw [hA, Option.getD_some, setAdd_of_mem _ _ (setAdd_self_mem _ _)]
    _ = dictAddToSet m k x := dictSet_self _ _ _ hA

theorem putLoop_all_ok (subs : List Endpoint) (putRaises : Endpoint → Bool)
    (h : ∀ q ∈ subs, putRaises q = false) : putLoop subs putRaises = subs := by
  induction subs with
  | nil => rfl
  | cons q rest ih =>
    unfold putLoop
    rw [h q (List.mem_cons_self q rest)]
    simp only [Bool.false_eq_true, if_false]
    rw [ih (fun q' hq' => h q' (List.mem_cons_of_mem q hq'))]

theorem putLoop_stops_at_failure (l₁ : List Endpoint) (qf : Endpoint)
    (l₂ : List Endpoint) (putRaises : Endpoint → Bool)
    (hok : ∀ x ∈ l₁, putRaises x = false) (hf : putRaises qf = true) :
    putLoop (l₁ ++ qf :: l₂) putRaises = l₁ := by
  induction l₁ with
  | nil =>
    rw [List.nil_append]
    unfold putLoop
    rw [hf]
    simp
  | cons q rest ih =>
    rw [List.cons_append]
    unfold putLoop
    rw [hok q (List.mem_cons_self q rest)]
    simp only [Bool.false_eq_true, if_false]
    rw [ih (fun x hx => hok x (List.mem_cons_of_mem q hx))]

/-! ## Claim C4 — identifier validation -/

/-- C4: `_validate_can_id` succeeds exactly on integers in `[0, 0x7FF]`; an
integer that is negative or `≥ 0x800` fails with the identifier-out-of-range
error; a non-integral value fails with the invalid-identifier-type error. -/
theorem C4_validate_can_id_correct (n : Int) (tag : String) :
    (0 ≤ n ∧ n ≤ 0x7FF → _validate_can_id (.intVal n) = none) ∧
    (n < 0 ∨ 0x800 ≤ n →
      _validate_can_id (.intVal n) = some .identifierOutOfRange) ∧
    _validate_can_id (.nonIntVal tag) = some .invalidIdentifierType := by
  refine ⟨fun h => ?_, fun h => ?_, rfl⟩
  · have hc : ¬ (n < 0 ∨ n ≥ 0x800) := by omega
    simp [_validate_can_id, hc]
  · have hc : n < 0 ∨ n ≥ 0x800 := by omega
    simp [_validate_can_id, hc]

/-- Witness for C4 at the concrete inputs of the repository's tests:
`0x123` is accepted, `0x800` is out of range, `'ABBA'` has the wrong type. -/
theorem C4_validate_can_id_correct_witness :
    _validate_can_id (.intVal 0x123) = none ∧
    _validate_can_id (.intVal 0x800) = some .identifierOutOfRange ∧
    _validate_can_id (.nonIntVal "ABBA") = some .invalidIdentifierType :=
  ⟨(C4_validate_can_id_correct 0x123 "ABBA").1 (by decide),
   (C4_validate_can_id_correct 0x800 "ABBA").2.1 (by decide),
   (C4_validate_can_id_correct 0 "ABBA").2.2⟩

/-! ## Claim C5 — range registration rejects bad input without mutation -/

/-- C5: `register_subscriber_range_id` raises the validation error of a bad
bound (the high bound checked first), or the invalid-range error when the high
bound is less than the low bound, and in each of these cases returns the state
unchanged — no id of the range is added to either map. -/
theorem C5_range_validation_atomic (st : CanManagerState) (hi lo : PyVal)
    (q : Endpoint) :
    (∀ e, _validate_can_id hi = some e →
        register_subscriber_range_id st hi lo q = (st, some e)) ∧
    (∀ e, _validate_can_id hi = none → _validate_can_id lo = some e →
        register_subscriber_range_id st hi lo q = (st, some e)) ∧
    (∀ h l : Int, hi = .intVal h → lo = .intVal l →
        _validate_can_id hi = none → _validate_can_id lo = none → h < l →
        register_subscriber_range_id st hi lo q = (st, some .invalidRange)) :=
  ⟨fun e hv => register_range_err_high st hi lo q e hv,
   fun e hv1 hv2 => register_range_err_low st hi lo q e hv1 hv2,
   fun h l hh hl hv1 hv2 hlt =>
     register_range_err_swapped st hi lo q hv1 hv2
       (by subst hh; subst hl; simpa [PyVal.toInt] using hlt)⟩

/-- Witness for C5: from the fresh state, a range with an out-of-range high
bound fails with the out-of-range error, and a swapped range `[0x200, 0x190]`
fails with the invalid-range error; both leave the state untouched. -/
theorem C5_range_validation_atomic_witness :
    register_subscriber_range_id canManagerInit (.intVal 0x800) (.intVal 0x799)
        7 = (canManagerInit, some .identifierOutOfRange) ∧
    register_subscriber_range_id canManagerInit (.intVal 0x190) (.intVal 0x200)
        7 = (canManagerInit, some .invalidRange) :=
  ⟨(C5_range_validation_atomic canManagerInit (.intVal 0x800) (.intVal 0x799)
      7).1 .identifierOutOfRange (by decide),
   (C5_range_validation_atomic canManagerInit (.intVal 0x190) (.intVal 0x200)
      7).2.2 0x190 0x200 rfl rfl (by decide) (by decide) (by decide)⟩

/-! ## Claim C2 — failed start leaves the lifecycle flag set -/

/-- C2 (evaluation of the code at the failing input): `CanManager.start` sets
`is_running = True` before opening the bus; when the open raises, the
exception propagates with the flag still `true`.  So from the freshly
constructed (stopped) object — indeed from any state — a failed `start` leaves
the lifecycle flag at running, not stopped as the claim states. -/
theorem C2_start_failure_leaves_running (st : CanManagerState) :
    canManagerInit.is_running = false ∧
    (CanManager_start st true).2 = true ∧
    (CanManager_start st true).1.is_running = true :=
  ⟨rfl, rfl, rfl⟩

/-! ## Claim C9 — the send path has no payload-length check -/

/-- C9 counterexample: a message whose payload is 9 bytes long is handed to the
transport adapter (`bus.send`) unchanged by the send-loop iteration — it is not
rejected with a payload-too-large error before reaching the adapter. -/
theorem C9_counterexample :
    exMsg9.data.length = 9 ∧
    (_send_can_messages_iteration (fun _ => false) (some exMsg9)).1 =
      [exMsg9] := by
  exact ⟨rfl, rfl⟩

/-- C9 (amended): the send loop forwards every message pulled from the command
queue to the transport adapter with identical bytes, whatever its payload
length — the body performs no payload-length validation, so there is no
payload-too-large failure; an adapter write error is only logged (the
iteration is total). -/
theorem C9_send_forwards_unchecked (busSendRaises : CanMessage → Bool)
    (m : CanMessage) :
    (_send_can_messages_iteration busSendRaises (some m)).1 = [m] ∧
    (_send_can_messages_iteration busSendRaises none).1 = [] ∧
    (_send_can_messages_iteration busSendRaises (some m)).2 = busSendRaises m :=
  ⟨rfl, rfl, rfl⟩

/-! ## Claim C6 — successful range registration populates both maps -/

/-- C6: after a successful `register_subscriber_range_id` with valid bounds and
`l ≤ h`, the forward map holds the endpoint in the set of every id
`x ∈ [l, h]`, and the reverse-map entry of the endpoint holds every such id. -/
theorem C6_range_success_membership (st : CanManagerState) (h l : Int)
    (q : Endpoint) (hvh : _validate_can_id (.intVal h) = none)
    (hvl : _validate_can_id (.intVal l) = none) (hle : l ≤ h)
    (x : Int) (hx1 : l ≤ x) (hx2 : x ≤ h) :
    (register_subscriber_range_id st (.intVal h) (.intVal l) q).2 = none ∧
    q ∈ (dictLookup (register_subscriber_range_id st (.intVal h) (.intVal l)
          q).1.id_subscriber_map (.intVal x)).getD [] ∧
    (PyVal.intVal x) ∈ (dictLookup (register_subscriber_range_id st (.intVal h)
          (.intVal l) q).1.subscriber_id_map q).getD [] := by
  have hok := register_range_ok st (.intVal h) (.intVal l) q hvh hvl
    (by simp only [PyVal.toInt]; omega)
  rw [hok]
  refine ⟨rfl, ?_, ?_⟩
  · exact (mem_foldl_dictAddToSet (rangeList l h) st.id_subscriber_map q q
      (.intVal x)).mpr (Or.inr ⟨rfl, x, (mem_rangeList l h x).mpr ⟨hx1, hx2⟩, rfl⟩)
  · exact (mem_revRangeFold (rangeList l h) st.subscriber_id_map q q
      (.intVal x)).mpr (Or.inr ⟨rfl, x, (mem_rangeList l h x).mpr ⟨hx1, hx2⟩, rfl⟩)

/-- Witness for C6: subscribing endpoint `5` to the range `[0x123, 0x133]`
succeeds and `0x130` maps to `5` in the forward view and back. -/
theorem C6_range_success_membership_witness :
    (register_subscriber_range_id canManagerInit (.intVal 0x133)
        (.intVal 0x123) 5).2 = none ∧
    5 ∈ (dictLookup (register_subscriber_range_id canManagerInit (.intVal 0x133)
        (.intVal 0x123) 5).1.id_subscriber_map (.intVal 0x130)).getD [] ∧
    (PyVal.intVal 0x130) ∈ (dictLookup (register_subscriber_range_id
        canManagerInit (.intVal 0x133) (.intVal 0x123)
        5).1.subscriber_id_map 5).getD [] :=
  C6_range_success_membership canManagerInit 0x133 0x123 5 (by decide) (by decide)
    (by decide) 0x130 (by decide) (by decide)

/-! ## Claim C7 — the registry operations preserve the invariant -/

/-- C7: every registry operation (single registration, range registration,
deregistration) preserves the registry invariant: a pair `(id, ep)` is in the
forward view iff it is in the reverse view, and no entry of either map holds an
empty set. -/
theorem C7_registry_invariant_preserved (st st' : CanManagerState)
    (hinv : RegInv st) :
    (∀ k q e, register_subscriber_single_id st k q = (st', e) → RegInv st') ∧
    (∀ hi lo q e, register_subscriber_range_id st hi lo q = (st', e) →
      RegInv st') ∧
    (∀ k q e, deregister_subscriber st k q = (st', e) → RegInv st') :=
  ⟨fun k q e h => RegInv_register_single st st' k q e hinv h,
   fun hi lo q e h => RegInv_register_range st st' hi lo q e hinv h,
   fun k q e h => RegInv_deregister st st' k q e hinv h⟩

/-- Witness for C7: the invariant holds after registering `(0x123, 4)` in the
fresh state (whose invariant holds trivially). -/
theorem C7_registry_invariant_preserved_witness :
    RegInv (register_subscriber_single_id canManagerInit (.intVal 0x123) 4).1 :=
  (C7_registry_invariant_preserved canManagerInit
      (register_subscriber_single_id canManagerInit (.intVal 0x123) 4).1
      RegInv_canManagerInit).1 (.intVal 0x123) 4
      (register_subscriber_single_id canManagerInit (.intVal 0x123) 4).2 rfl

/-! ## Claim C8 — duplicate single registration is a no-op -/

/-- C8: for a valid id, registering the same `(id, endpoint)` pair twice in
succession yields exactly the same registry state (both maps) as registering
it once, and the second call raises nothing. -/
theorem C8_register_single_idempotent (st : CanManagerState) (k : PyVal)
    (q : Endpoint) (hv : _validate_can_id k = none) :
    register_subscriber_single_id (register_subscriber_single_id st k q).1 k q =
      ((register_subscriber_single_id st k q).1, none) ∧
    (register_subscriber_single_id st k q).2 = none := by
  rw [register_single_ok st k q hv]
  refine ⟨?_, rfl⟩
  show register_subscriber_single_id
      { st with
          id_subscriber_map := dictAddToSet st.id_subscriber_map k q,
          subscriber_id_map := dictAddToSet st.subscriber_id_map q k } k q = _
  rw [register_single_ok _ k q hv]
  simp only [dictAddToSet_idem]

/-- Witness for C8 at `(0x123, 9)` from the fresh state. -/
theorem C8_register_single_idempotent_witness :
    register_subscriber_single_id
        (register_subscriber_single_id canManagerInit (.intVal 0x123) 9).1
        (.intVal 0x123) 9 =
      ((register_subscriber_single_id canManagerInit (.intVal 0x123) 9).1,
        none) ∧
    (register_subscriber_single_id canManagerInit (.intVal 0x123) 9).2 = none :=
  C8_register_single_idempotent canManagerInit (.intVal 0x123) 9 (by decide)

/-! ## Claim C1 — unsubscribing an absent pair -/

/-- C1 counterexample: in `exSt1` (endpoint `10` subscribes to id `1`, endpoint
`20` subscribes to id `2`) the pair `(1, 20)` is absent from both views, yet
`deregister_subscriber exSt1 1 20` raises nothing — it succeeds silently (and
leaves the state unchanged) — refuting the claim that unsubscribing an absent
pair always raises the not-registered error. -/
theorem C1_counterexample :
    (20 ∉ (dictLookup exSt1.id_subscriber_map (.intVal 1)).getD []) ∧
    ((PyVal.intVal 1) ∉ (dictLookup exSt1.subscriber_id_map 20).getD []) ∧
    deregister_subscriber exSt1 (.intVal 1) 20 = (exSt1, none) := by decide

/-- C1 (amended): on a state satisfying the registry invariant, unsubscribing a
pair that is not subscribed leaves both maps exactly as they were, and raises
the not-registered error exactly when the id has no subscribers at all or the
endpoint is registered under no id; when both the id and the endpoint occur in
the registry while the pair itself is absent, the call succeeds silently. -/
theorem C1_deregister_unsubscribed_pair (st : CanManagerState) (k : PyVal)
    (q : Endpoint) (hinv : RegInv st)
    (habs : q ∉ (dictLookup st.id_subscriber_map k).getD []) :
    (deregister_subscriber st k q).1 = st ∧
    ((deregister_subscriber st k q).2 = some .notRegistered ↔
      (dictMem st.id_subscriber_map k = false ∨
       dictMem st.subscriber_id_map q = false)) ∧
    (dictMem st.id_subscriber_map k = true →
      dictMem st.subscriber_id_map q = true →
      (deregister_subscriber st k q).2 = none) := by
  obtain ⟨hiff, hfwd, hrev⟩ := hinv
  have habs2 : k ∉ (dictLookup st.subscriber_id_map q).getD [] := by
    intro hk
    exact habs ((hiff k q).mpr hk)
  by_cases h1 : dictMem st.id_subscriber_map k = true
  · by_cases h2 : dictMem st.subscriber_id_map q = true
    · rw [deregister_ok st k q h1 h2]
      refine ⟨?_, ?_, fun _ _ => rfl⟩
      · have e1 : dictRemoveFromSet st.id_subscriber_map k q =
            st.id_subscriber_map :=
          dictRemoveFromSet_of_not_mem _ _ _ habs (fun s hs => hfwd k s hs)
        have e2 : dictRemoveFromSet st.subscriber_id_map q k =
            st.subscriber_id_map :=
          dictRemoveFromSet_of_not_mem _ _ _ habs2 (fun t ht => hrev q t ht)
        show ({ st with
            id_subscriber_map := dictRemoveFromSet st.id_subscriber_map k q,
            subscriber_id_map := dictRemoveFromSet st.subscriber_id_map q k } :
          CanManagerState) = st
        rw [e1, e2]
      · simp [h1, h2]
    · have h2' : dictMem st.subscriber_id_map q = false := by
        revert h2
        cases dictMem st.subscriber_id_map q <;> simp
      rw [deregister_err st k q (Or.inr h2')]
      exact ⟨rfl, by simp [h2'], fun _ hq2 => absurd hq2 h2⟩
  · have h1' : dictMem st.id_subscriber_map k = false := by
      revert h1
      cases dictMem st.id_subscriber_map k <;> simp
    rw [deregister_err st k q (Or.inl h1')]
    exact ⟨rfl, by simp [h1'], fun hq1 _ => absurd hq1 h1⟩

/-- Witness for C1 (amended) at the state `exSt1` and the absent pair
`(1, 20)`: the call succeeds silently (both keys are present) and the state is
unchanged. -/
theorem C1_deregister_unsubscribed_pair_witness :
    (deregister_subscriber exSt1 (.intVal 1) 20).1 = exSt1 ∧
    ((deregister_subscriber exSt1 (.intVal 1) 20).2 = some .notRegistered ↔
      (dictMem exSt1.id_subscriber_map (.intVal 1) = false ∨
       dictMem exSt1.subscriber_id_map 20 = false)) ∧
    (dictMem exSt1.id_subscriber_map (.intVal 1) = true →
      dictMem exSt1.subscriber_id_map 20 = true →
      (deregister_subscriber exSt1 (.intVal 1) 20).2 = none) :=
  C1_deregister_unsubscribed_pair exSt1 (.intVal 1) 20
    (RegInv_register_single
      (register_subscriber_single_id canManagerInit (.intVal 1) 10).1 exSt1
      (.intVal 2) 20 none
      (RegInv_register_single canManagerInit
        (register_subscriber_single_id canManagerInit (.intVal 1) 10).1
        (.intVal 1) 10 none RegInv_canManagerInit (by decide))
      (by decide))
    (by decide)

/-! ## Claim C10 — deregistration never validates the identifier -/

/-- C10 counterexample: in `exSt10` (id `3` has subscriber `30`, endpoint `40`
subscribes to id `4`) the pair `(3, 40)` is not registered, yet
`deregister_subscriber exSt10 3 40` raises nothing at all — refuting the
claim's assertion that every unregistered pair raises the not-registered
error. -/
theorem C10_counterexample :
    (40 ∉ (dictLookup exSt10.id_subscriber_map (.intVal 3)).getD []) ∧
    deregister_subscriber exSt10 (.intVal 3) 40 = (exSt10, none) := by decide

/-- C10 (amended): `deregister_subscriber` performs no identifier validation:
for every value of the id (integral or not, in range or not) its outcome is
success or the not-registered error — never the type or range validation
errors; it raises the not-registered error exactly when the id is not a key of
the forward map or the endpoint is not a key of the reverse map (in particular
for every non-integral or out-of-range id, which can never be a forward-map key
of a reachable state), in which case it mutates nothing; and whenever both keys
are present it succeeds silently, raising no error. -/
theorem C10_deregister_no_validation (st : CanManagerState) (v : PyVal)
    (q : Endpoint) :
    ((deregister_subscriber st v q).2 = none ∨
      (deregister_subscriber st v q).2 = some .notRegistered) ∧
    ((deregister_subscriber st v q).2 = some .notRegistered ↔
      (dictMem st.id_subscriber_map v = false ∨
       dictMem st.subscriber_id_map q = false)) ∧
    (dictMem st.id_subscriber_map v = false ∨
      dictMem st.subscriber_id_map q = false →
      deregister_subscriber st v q = (st, some .notRegistered)) ∧
    (dictMem st.id_subscriber_map v = true →
      dictMem st.subscriber_id_map q = true →
      (deregister_subscriber st v q).2 = none) := by
  by_cases h1 : dictMem st.id_subscriber_map v = true
  · by_cases h2 : dictMem st.subscriber_id_map q = true
    · rw [deregister_ok st v q h1 h2]
      refine ⟨Or.inl rfl, ?_, ?_, fun _ _ => rfl⟩
      · simp [h1, h2]
      · rintro (hf | hf) <;> simp_all
    · have h2' : dictMem st.subscriber_id_map q = false := by
        revert h2
        cases dictMem st.subscriber_id_map q <;> simp
      rw [deregister_err st v q (Or.inr h2')]
      exact ⟨Or.inr rfl, by simp [h2'], fun _ => rfl, fun _ hq => absurd hq h2⟩
  · have h1' : dictMem st.id_subscriber_map v = false := by
      revert h1
      cases dictMem st.id_subscriber_map v <;> simp
    rw [deregister_err st v q (Or.inl h1')]
    exact ⟨Or.inr rfl, by simp [h1'], fun _ => rfl, fun hp _ => absurd hp h1⟩

/-- Witness for C10 (amended): deregistering the non-integral id `'ABBA'` from
the fresh state raises the not-registered error, not a validation error. -/
theorem C10_deregister_no_validation_witness :
    deregister_subscriber canManagerInit (.nonIntVal "ABBA") 0 =
      (canManagerInit, some .notRegistered) :=
  (C10_deregister_no_validation canManagerInit (.nonIntVal "ABBA") 0).2.2.1
    (by decide)

/-! ## Claim C3 — fan-out aborts at the first failed delivery -/

/-- C3 counterexample: with endpoints `1` and `2` subscribed to id `5` in that
order and endpoint `1`'s queue raising on `put`, dispatching a message with id
`5` delivers to nobody: endpoint `2` is subscribed and its own queue accepts,
yet it does not receive the message — the delivery attempts are not
independent. -/
theorem C3_counterexample :
    2 ∈ subscribersOf exSt3 5 ∧ exFailing 2 = false ∧
    2 ∉ _receive_can_messages_dispatch exSt3 exFailing exMsg3 := by decide

/-- C3 (amended): the receive loop's fan-out attempts deliveries sequentially
in registry order; a failing delivery is caught and logged at the message
level — the dispatch step always returns, so the loop continues — but it
aborts the remainder of that fan-out: the endpoints before the first failing
endpoint receive the message and the endpoints after it do not. -/
theorem C3_dispatch_aborts_at_first_failure (st : CanManagerState)
    (putRaises : Endpoint → Bool) (msg : CanMessage) :
    ((∀ q ∈ subscribersOf st msg.arbitration_id, putRaises q = false) →
      _receive_can_messages_dispatch st putRaises msg =
        subscribersOf st msg.arbitration_id) ∧
    (∀ l₁ qf l₂, subscribersOf st msg.arbitration_id = l₁ ++ qf :: l₂ →
      (∀ x ∈ l₁, putRaises x = false) → putRaises qf = true →
      _receive_can_messages_dispatch st putRaises msg = l₁) := by
  unfold _receive_can_messages_dispatch subscribersOf
  by_cases hm : dictMem st.id_subscriber_map (.intVal msg.arbitration_id) = true
  · rw [if_pos hm]
    refine ⟨fun hall => putLoop_all_ok _ _ hall, fun l₁ qf l₂ hdec hok hf => ?_⟩
    rw [hdec]
    exact putLoop_stops_at_failure l₁ qf l₂ putRaises hok hf
  · rw [if_neg hm]
    have hnone : dictLookup st.id_subscriber_map
        (.intVal msg.arbitration_id) = none := by
      revert hm
      unfold dictMem
      cases dictLookup st.id_subscriber_map (.intVal msg.arbitration_id) <;> simp
    rw [hnone]
    exact ⟨fun _ => rfl, fun l₁ qf l₂ hdec => by simp at hdec⟩

/-- Witness for C3 (amended) at `exSt3`: subscriber list `[1, 2]`, endpoint `1`
failing first, so nobody receives the message. -/
theorem C3_dispatch_aborts_at_first_failure_witness :
    _receive_can_messages_dispatch exSt3 exFailing exMsg3 = [] :=
  (C3_dispatch_aborts_at_first_failure exSt3 exFailing exMsg3).2 [] 1 [2]
    (by decide) (by decide) (by decide)
